import Mathlib

/-!
Shallow embedding of the Maktaba chat-library data layer (src/content.js):
the normalized library (folder tree + flat chat dictionary + pinned
searches), its mutation operations, the quota gatekeeper, the sync
listener and the search-token engine, together with theorems settling
the specification claims.
-/

set_option maxRecDepth 4000

namespace Maktaba

/-! ## Basic string helpers mirroring JavaScript semantics -/

/-- Characters treated as whitespace by JavaScript `trim` and the `\s`
regex class (core ASCII cases). -/
def jsSpace (c : Char) : Bool :=
  c = ' ' || c = '\t' || c = '\n' || c = '\r' || c = '\x0b' || c = '\x0c'

/-- JavaScript `String.prototype.trim` on the character list. -/
def jsTrimList (cs : List Char) : List Char :=
  ((cs.dropWhile jsSpace).reverse.dropWhile jsSpace).reverse

/-- JavaScript `String.prototype.trim`. -/
def jsTrim (s : String) : String :=
  ⟨jsTrimList s.data⟩

/-- Lower-casing of a string, char by char (model of JS `toLowerCase`
for the ASCII range used by the matcher). -/
def toLowerStr (s : String) : String :=
  ⟨s.data.map Char.toLower⟩

/-- `needle` occurs as a contiguous substring of `hay`
(model of JS `String.prototype.includes`). -/
def listContainsSub (needle hay : List Char) : Bool :=
  match hay with
  | [] => needle.isEmpty
  | _ :: t => needle.isPrefixOf hay || listContainsSub needle t

/-- String-level substring containment: `containsSub n h` is JS
`h.includes(n)`. -/
def containsSub (needle hay : String) : Bool :=
  listContainsSub needle.data hay.data

/-! ## Data model (content.js typedefs: ChatEntry, Folder, Library) -/

/-- A chat metadata record of the flat `allChats` dictionary.  The JS
field `annotation` is embedded as `annot`. -/
structure ChatEntry where
  id : String
  title : String
  tags : List String
  annot : String
  timestamp : Int
  updatedAt : Int
  deriving DecidableEq, Repr

/-- A folder node: id (a JS number, time-based), display name, ordered
chat references, owned subfolder subtree, note (JS `annotation`) and an
optional per-folder sort preference. -/
inductive Folder where
  | mk (id : Int) (name : String) (chatIds : List String)
       (subfolders : List Folder) (annot : String)
       (sortOrder : Option String) : Folder

def Folder.id : Folder → Int
  | .mk i _ _ _ _ _ => i

def Folder.name : Folder → String
  | .mk _ n _ _ _ _ => n

def Folder.chatIds : Folder → List String
  | .mk _ _ c _ _ _ => c

def Folder.subfolders : Folder → List Folder
  | .mk _ _ _ s _ _ => s

def Folder.annot : Folder → String
  | .mk _ _ _ _ a _ => a

def Folder.sortOrder : Folder → Option String
  | .mk _ _ _ _ _ o => o

/-- Replace a folder's `chatIds`. -/
def Folder.withChatIds (f : Folder) (c : List String) : Folder :=
  match f with
  | .mk i n _ s a o => .mk i n c s a o

/-- Replace a folder's `subfolders`. -/
def Folder.withSubfolders (f : Folder) (s : List Folder) : Folder :=
  match f with
  | .mk i n c _ a o => .mk i n c s a o

/-- A pinned search entry. -/
structure PinnedSearch where
  id : Int
  title : String
  query : String
  deriving DecidableEq, Repr

/-- The root aggregate (`folderData` in content.js).  `allChats` is the
JS object embedded as an insertion-ordered association list. -/
structure Library where
  folders : List Folder
  allChats : List (String × ChatEntry)
  pinnedSearches : List PinnedSearch

/-- The empty library used when storage holds no entry. -/
def emptyLibrary : Library :=
  { folders := [], allChats := [], pinnedSearches := [] }

/-! ## The allChats dictionary (JS object semantics) -/

/-- Lookup of `allChats[chatId]`. -/
def lookupChat (k : String) (m : List (String × ChatEntry)) : Option ChatEntry :=
  match m with
  | [] => none
  | (k', v) :: rest => if k' = k then some v else lookupChat k rest

/-- Assignment `allChats[chatId] = v`: an existing key keeps its
position, a new key is appended (JS property order). -/
def upsertChat (k : String) (v : ChatEntry) (m : List (String × ChatEntry)) :
    List (String × ChatEntry) :=
  match m with
  | [] => [(k, v)]
  | (k', v') :: rest =>
      if k' = k then (k', v) :: rest else (k', v') :: upsertChat k v rest

/-- `delete allChats[chatId]`. -/
def deleteChat (k : String) (m : List (String × ChatEntry)) :
    List (String × ChatEntry) :=
  m.filter (fun p => p.1 ≠ k)

/-- `Object.keys(allChats)`. -/
def chatKeys (m : List (String × ChatEntry)) : List String :=
  m.map Prod.fst

/-! ## Loose id equality (JS `==` between folder ids and DOM strings) -/

/-- An id value handed to a folder operation: either a JS number (as in
direct calls) or a string (as read from a DOM `data-id` attribute). -/
inductive JsId where
  | num (n : Int)
  | str (s : String)
  deriving DecidableEq, Repr

/-- Model of JS `ToNumber` on strings for the integral case: the string
is trimmed; empty converts to 0; an optional sign followed by decimal
digits converts to the denoted integer; anything else is NaN (`none`). -/
def jsToNumber (s : String) : Option Int :=
  let t := jsTrimList s.data
  match t with
  | [] => some 0
  | '-' :: ds =>
      if ds ≠ [] ∧ ds.all Char.isDigit then
        some (-(ds.foldl (fun a c => a * 10 + (c.toNat - '0'.toNat)) 0 : Nat))
      else none
  | ds =>
      if ds.all Char.isDigit then
        some (ds.foldl (fun a c => a * 10 + (c.toNat - '0'.toNat)) 0 : Nat)
      else none

/-- JS loose equality `folder.id == id` between a stored numeric folder
id and a supplied id value. -/
def looseEq (stored : Int) (q : JsId) : Bool :=
  match q with
  | .num m => stored = m
  | .str s =>
      match jsToNumber s with
      | some m => stored = m
      | none => false

/-! ## Tree traversal and first-match mutation (getFolderContext DFS) -/

/-- `getFolderContext`: depth-first search over the folder tree, node
before its subfolders, returning the first folder whose id loosely
matches. -/
def getFolderContext (q : JsId) (list : List Folder) : Option Folder :=
  match list with
  | [] => none
  | f :: rest =>
      if looseEq f.id q then some f
      else
        match getFolderContext q f.subfolders with
        | some g => some g
        | none => getFolderContext q rest
  termination_by sizeOf list
  decreasing_by
    all_goals cases f
    all_goals (simp [Folder.subfolders]; try omega)

/-- Apply `upd` to the first folder (in `getFolderContext` order) whose
id loosely matches `q`; all other nodes are untouched. -/
def updateFirstFolder (q : JsId) (upd : Folder → Folder) (list : List Folder) :
    List Folder :=
  match list with
  | [] => []
  | f :: rest =>
      if looseEq f.id q then upd f :: rest
      else
        match getFolderContext q f.subfolders with
        | some _ => f.withSubfolders (updateFirstFolder q upd f.subfolders) :: rest
        | none => f :: updateFirstFolder q upd rest
  termination_by sizeOf list
  decreasing_by
    all_goals cases f
    all_goals (simp [Folder.subfolders]; try omega)

/-- Splice the first loosely-matching folder out of the tree (the
`context.siblings.splice(context.index, 1)` step), returning it
together with the remaining tree. -/
def extractFirstFolder (q : JsId) (list : List Folder) :
    Option (Folder × List Folder) :=
  match list with
  | [] => none
  | f :: rest =>
      if looseEq f.id q then some (f, rest)
      else
        match extractFirstFolder q f.subfolders with
        | some (m, subs) => some (m, f.withSubfolders subs :: rest)
        | none =>
            match extractFirstFolder q rest with
            | some (m, rest') => some (m, f :: rest')
            | none => none
  termination_by sizeOf list
  decreasing_by
    all_goals cases f
    all_goals (simp [Folder.subfolders]; try omega)

/-- All folder nodes of the tree in depth-first order (node before its
subtree): the traversal domain shared by `findAllFoldersForChat` and
`findUnlinked`. -/
def allFolders (list : List Folder) : List Folder :=
  match list with
  | [] => []
  | f :: rest => f :: (allFolders f.subfolders ++ allFolders rest)
  termination_by sizeOf list
  decreasing_by
    all_goals cases f
    all_goals (simp [Folder.subfolders]; try omega)

/-- `findAllFoldersForChat`: every folder whose `chatIds` contains the
chat id, in traversal order. -/
def findAllFoldersForChat (chatId : String) (list : List Folder) : List Folder :=
  match list with
  | [] => []
  | f :: rest =>
      (if chatId ∈ f.chatIds then [f] else []) ++
        findAllFoldersForChat chatId f.subfolders ++
        findAllFoldersForChat chatId rest
  termination_by sizeOf list
  decreasing_by
    all_goals cases f
    all_goals (simp [Folder.subfolders]; try omega)

/-! ## Garbage collector (findUnlinked) -/

/-- The chat ids referenced by any folder's `chatIds` across the whole
tree, gathered by the `traverse` closure of `findUnlinked`. -/
def refsList (list : List Folder) : List String :=
  match list with
  | [] => []
  | f :: rest => f.chatIds ++ refsList f.subfolders ++ refsList rest
  termination_by sizeOf list
  decreasing_by
    all_goals cases f
    all_goals (simp [Folder.subfolders]; try omega)

/-- `findUnlinked`: keys of `allChats` not referenced by any folder. -/
def findUnlinked (lib : Library) : List String :=
  (chatKeys lib.allChats).filter (fun id => !(refsList lib.folders).contains id)

/-! ## Tag normalization -/

/-- Drop the leading run of `#` markers (JS `replace(/^#+/, '')`). -/
def dropMarkers (s : String) : String :=
  ⟨s.data.dropWhile (· = '#')⟩

/-- The tag sanitizer of `saveChatToFolder`:
`` `#${t.trim().replace(/^#+/, '')}` `` — note it never drops a tag. -/
def sanitizeTagSave (t : String) : String :=
  "#" ++ dropMarkers (jsTrim t)

/-- The tag normalizer of `editChatTags`: same canonical form, but a
tag whose body comes out empty is dropped (`null` then filtered). -/
def normalizeTagEdit (t : String) : Option String :=
  let clean := dropMarkers (jsTrim t)
  if clean.length > 0 then some ("#" ++ clean) else none

/-! ## Chat linking / tag editing / unlinking -/

/-- `saveChatToFolder(folderId, chatId, chatTitle, tags, annotation)`:
locate the folder; upsert the `allChats` entry (timestamp preserved,
`updatedAt` set to now) and then append the reference only when it is
not already present.  Returns the updated library and the JS boolean
result (`true` iff the reference was appended and the save path ran). -/
def saveChatToFolder (folderId : JsId) (chatId chatTitle : String)
    (tags : List String) (annot : String) (now : Int) (lib : Library) :
    Library × Bool :=
  match getFolderContext folderId lib.folders with
  | none => (lib, false)
  | some folder =>
      let sanitizedTags := tags.map sanitizeTagSave
      let oldTimestamp :=
        match lookupChat chatId lib.allChats with
        | some old => old.timestamp
        | none => now
      let entry : ChatEntry :=
        { id := chatId, title := chatTitle, tags := sanitizedTags,
          annot := annot, timestamp := oldTimestamp, updatedAt := now }
      let chats' := upsertChat chatId entry lib.allChats
      if chatId ∈ folder.chatIds then
        ({ lib with allChats := chats' }, false)
      else
        ({ lib with
            allChats := chats',
            folders := updateFirstFolder folderId
              (fun g => g.withChatIds (g.chatIds ++ [chatId])) lib.folders },
          true)

/-- `editChatTags`: split the prompt string on commas, canonicalize each
part and drop empties, then store the list and refresh `updatedAt`.
No-op when the chat id has no `allChats` entry. -/
def editChatTags (chatId : String) (newTagString : String) (now : Int)
    (lib : Library) : Library :=
  match lookupChat chatId lib.allChats with
  | none => lib
  | some chat =>
      let tags' := (newTagString.splitOn ",").filterMap normalizeTagEdit
      let entry := { chat with tags := tags', updatedAt := now }
      { lib with allChats := upsertChat chatId entry lib.allChats }

/-- `removeChatFromFolder` with a non-null `folderId` (the confirmation
prompts are answered affirmatively): remove the reference from the one
located folder, then reclaim the `allChats` entry iff no folder
references the chat any more. -/
def removeChatFromFolder (chatId : String) (folderId : JsId) (lib : Library) :
    Library :=
  match getFolderContext folderId lib.folders with
  | none => lib
  | some _ =>
      let folders' := updateFirstFolder folderId
        (fun g => g.withChatIds (g.chatIds.filter (· ≠ chatId))) lib.folders
      let remainingLinks := findAllFoldersForChat chatId folders'
      if remainingLinks.length = 0 then
        { lib with folders := folders', allChats := deleteChat chatId lib.allChats }
      else
        { lib with folders := folders' }

/-! ## Folder moving (handleMoveFolder) -/

/-- The destination argument of `handleMoveFolder`: the literal string
`'root'` or a folder id. -/
inductive MoveTarget where
  | root
  | folder (id : JsId)
  deriving DecidableEq, Repr

/-- `handleMoveFolder(folderId, targetParentId)`: splice the folder out
of its sibling list first, then (for a non-root target) look the target
up in the already-spliced tree and append the folder to its
`subfolders`; when the target lookup fails nothing is re-inserted. -/
def handleMoveFolder (folderId : JsId) (target : MoveTarget) (lib : Library) :
    Library :=
  match extractFirstFolder folderId lib.folders with
  | none => lib
  | some (folderToMove, folders') =>
      match target with
      | .root => { lib with folders := folders' ++ [folderToMove] }
      | .folder tid =>
          match getFolderContext tid folders' with
          | some _ =>
              let reattached := updateFirstFolder tid
                (fun g => g.withSubfolders (g.subfolders ++ [folderToMove])) folders'
              { lib with folders := reattached }
          | none => { lib with folders := folders' }

/-- The `isDescendant` closure of `showMoveFolderMenu`: the id `childId`
names a folder strictly inside `parent`'s subtree. -/
def isDescendant (parent : Folder) (childId : JsId) : Bool :=
  parent.subfolders.any (fun sf => looseEq sf.id childId) ||
    parent.subfolders.attach.any (fun sf => isDescendant sf.1 childId)
  termination_by sizeOf parent
  decreasing_by
    obtain ⟨sf, hmem⟩ := sf
    cases parent
    simp [Folder.subfolders] at hmem ⊢
    have := List.sizeOf_lt_of_mem hmem
    omega

/-! ## Canonical serialization (JSON.stringify) and the quota gatekeeper -/

/-- Lower-case hex digit. -/
def hexDigit (n : Nat) : Char :=
  if n < 10 then Char.ofNat ('0'.toNat + n) else Char.ofNat ('a'.toNat + n - 10)

/-- JSON.stringify escaping of a single character. -/
def escapeJsonChar (c : Char) : String :=
  if c = '"' then "\\\""
  else if c = '\\' then "\\\\"
  else if c = '\x08' then "\\b"
  else if c = '\x0c' then "\\f"
  else if c = '\n' then "\\n"
  else if c = '\r' then "\\r"
  else if c = '\t' then "\\t"
  else if c.toNat < 0x20 then
    "\\u00" ++ String.singleton (hexDigit (c.toNat / 16)) ++
      String.singleton (hexDigit (c.toNat % 16))
  else String.singleton c

/-- JSON string literal. -/
def serStr (s : String) : String :=
  "\"" ++ String.join (s.data.map escapeJsonChar) ++ "\""

/-- JSON number (the ids and timestamps are JS integers). -/
def serNum (n : Int) : String :=
  toString n

/-- JSON array from already-serialized elements. -/
def serArr (elems : List String) : String :=
  "[" ++ String.intercalate "," elems ++ "]"

/-- JSON.stringify of a folder node: property order is the creation
order `id, name, chatIds, subfolders, annotation`, with `sortOrder`
appended only once it has been assigned. -/
def serFolder (f : Folder) : String :=
  match f with
  | .mk i n cids subs an so =>
      "\x7b\"id\":" ++ serNum i ++
        ",\"name\":" ++ serStr n ++
        ",\"chatIds\":" ++ serArr (cids.map serStr) ++
        ",\"subfolders\":" ++ serArr (subs.attach.map (fun s => serFolder s.1)) ++
        ",\"annotation\":" ++ serStr an ++
        (match so with
         | some v => ",\"sortOrder\":" ++ serStr v
         | none => "") ++ "\x7d"
  termination_by sizeOf f
  decreasing_by
    obtain ⟨s, hmem⟩ := s
    simp at hmem ⊢
    have := List.sizeOf_lt_of_mem hmem
    omega

/-- JSON.stringify of an `allChats` entry (property order of the object
literal in `saveChatToFolder`). -/
def serChat (c : ChatEntry) : String :=
  "\x7b\"id\":" ++ serStr c.id ++
    ",\"title\":" ++ serStr c.title ++
    ",\"tags\":" ++ serArr (c.tags.map serStr) ++
    ",\"annotation\":" ++ serStr c.annot ++
    ",\"timestamp\":" ++ serNum c.timestamp ++
    ",\"updatedAt\":" ++ serNum c.updatedAt ++ "\x7d"

/-- JSON.stringify of a pinned search. -/
def serPinned (p : PinnedSearch) : String :=
  "\x7b\"id\":" ++ serNum p.id ++
    ",\"title\":" ++ serStr p.title ++
    ",\"query\":" ++ serStr p.query ++ "\x7d"

/-- JSON.stringify of the whole library (`JSON.stringify(folderData)`). -/
def serLibrary (lib : Library) : String :=
  "\x7b\"folders\":" ++ serArr (lib.folders.map serFolder) ++
    ",\"allChats\":\x7b" ++
    String.intercalate ","
      (lib.allChats.map (fun p => serStr p.1 ++ ":" ++ serChat p.2)) ++
    "\x7d,\"pinnedSearches\":" ++ serArr (lib.pinnedSearches.map serPinned) ++
    "\x7d"

/-- `new Blob([JSON.stringify(folderData)]).size`: the UTF-8 byte length
of the canonical serialization. -/
def measuredBytes (lib : Library) : Nat :=
  (serLibrary lib).utf8ByteSize

/-- Chrome sync quota (bytes). -/
def QUOTA_LIMIT : Nat := 102400

/-- Safety buffer subtracted from the quota before comparing. -/
def SAFETY_BUFFER : Nat := 2048

/-- Result of the save path of `saveAndRefresh`: either the write is
aborted before `chrome.storage.sync.set` with the measured size
surfaced, or the serialized library is handed to the storage layer. -/
inductive SaveOutcome where
  | rejected (bytesInUse : Nat)
  | persisted (payload : Library)

/-- The quota-gatekeeper decision of `saveAndRefresh`. -/
def saveGate (lib : Library) : SaveOutcome :=
  let bytesInUse := measuredBytes lib
  if bytesInUse > QUOTA_LIMIT - SAFETY_BUFFER then .rejected bytesInUse
  else .persisted lib

/-! ## Sync reconciler (setupAutoSync storage listener) -/

/-- The in-memory session counters (`window.maktabaStats`). -/
structure SessionStats where
  renders : Nat
  skips : Nat
  deriving DecidableEq, Repr

/-- The `chrome.storage.onChanged` listener of `setupAutoSync` for a
`maktaba_folders` change in the `sync` namespace: compare canonical
serializations; when identical do nothing, otherwise replace the
library wholesale (empty default when the new value is absent) and
refresh (the refresh bumps the `renders` counter).  The returned flag
is `true` iff a refresh was triggered. -/
def syncOnChanged (current : Library) (stats : SessionStats)
    (newValue : Option Library) : Library × SessionStats × Bool :=
  if (newValue.map serLibrary) = some (serLibrary current) then
    (current, stats, false)
  else
    (newValue.getD emptyLibrary, { stats with renders := stats.renders + 1 }, true)

/-! ## Query engine (renderSearchResults tokenizer and isMatch) -/

/-- A classified search token. -/
inductive Token where
  | text (v : String)
  | notText (v : String)
  | tag (v : String)
  | notTag (v : String)
  deriving DecidableEq, Repr

/-- The alternation `(?:"([^"]+)"|([^\s]+))` of the tokenizer regex,
attempted at the current position: returns the raw matched value, a
flag telling whether the quoted branch matched, and the rest of the
input.  Fails only when the position holds whitespace or the end. -/
def matchBody (cs : List Char) : Option (List Char × Bool × List Char) :=
  match cs with
  | [] => none
  | '"' :: rest =>
      let p := rest.span (fun c => c ≠ '"')
      match p.2 with
      | '"' :: rest' =>
          if p.1 = [] then
            some ((cs.span (fun c => !jsSpace c)).1, false,
                  (cs.span (fun c => !jsSpace c)).2)
          else some (p.1, true, rest')
      | _ =>
          some ((cs.span (fun c => !jsSpace c)).1, false,
                (cs.span (fun c => !jsSpace c)).2)
  | c :: _ =>
      if jsSpace c then none
      else
        some ((cs.span (fun c => !jsSpace c)).1, false,
              (cs.span (fun c => !jsSpace c)).2)

/-- Token classification: lower-case the raw value; a quoted token is
always plain text; an unquoted token starting with `#` is a tag token
with the marker stripped. -/
def classify (isNegative : Bool) (raw : List Char) (wasQuoted : Bool) : Token :=
  let val := raw.map Char.toLower
  if wasQuoted then
    if isNegative then .notText ⟨val⟩ else .text ⟨val⟩
  else
    match val with
    | '#' :: tl => if isNegative then .notTag ⟨tl⟩ else .tag ⟨tl⟩
    | _ => if isNegative then .notText ⟨val⟩ else .text ⟨val⟩

/-- One attempt of the regex `(-?)(?:"([^"]+)"|([^\s]+))` at the current
position.  A leading `-` whose body fails to match backtracks to an
empty minus group with the `-` itself as the value. -/
def tokenStep (cs : List Char) : Option (Token × List Char) :=
  match cs with
  | '-' :: rest =>
      match matchBody rest with
      | some (raw, q, rest') => some (classify true raw q, rest')
      | none => some (classify false ['-'] false, rest)
  | _ =>
      (matchBody cs).map (fun r => (classify false r.1 r.2.1, r.2.2))

/-- The scanning loop of `regex.exec`: try a match at each position,
advancing over characters that start no match. -/
def tokenizeLoop (fuel : Nat) (cs : List Char) : List Token :=
  match fuel, cs with
  | 0, _ => []
  | _, [] => []
  | fuel + 1, cs@(_ :: rest) =>
      match tokenStep cs with
      | some (tok, rest') => tok :: tokenizeLoop fuel rest'
      | none => tokenizeLoop fuel rest

/-- Tokenization of a raw query string (the token-building loop of
`renderSearchResults`). -/
def tokenize (q : String) : List Token :=
  tokenizeLoop q.data.length q.data

/-- `isMatch`: a chat matches iff every token's predicate holds;
`text` tokens check title and note containment, `tag` tokens check
substring containment in the lower-cased tag list, and the negative
forms check absence. -/
def isMatch (chat : ChatEntry) (tokens : List Token) : Bool :=
  tokens.all fun token =>
    let title := toLowerStr chat.title
    let note := toLowerStr chat.annot
    let tags := chat.tags.map toLowerStr
    match token with
    | .tag v => tags.any fun t => containsSub v t
    | .notTag v => !(tags.any fun t => containsSub v t)
    | .notText v => !(containsSub v title) && !(containsSub v note)
    | .text v => containsSub v title || containsSub v note

/-! ## Supporting lemmas -/

@[simp] theorem Folder.id_mk (i n c s a o) : (Folder.mk i n c s a o).id = i := rfl

@[simp] theorem Folder.chatIds_mk (i n c s a o) : (Folder.mk i n c s a o).chatIds = c := rfl

@[simp] theorem Folder.subfolders_mk (i n c s a o) : (Folder.mk i n c s a o).subfolders = s := rfl

@[simp] theorem Folder.id_withChatIds (f : Folder) (c) : (f.withChatIds c).id = f.id := by
  cases f; rfl

@[simp] theorem Folder.chatIds_withChatIds (f : Folder) (c) : (f.withChatIds c).chatIds = c := by
  cases f; rfl

@[simp] theorem Folder.subfolders_withChatIds (f : Folder) (c) :
    (f.withChatIds c).subfolders = f.subfolders := by
  cases f; rfl

@[simp] theorem Folder.id_withSubfolders (f : Folder) (s) : (f.withSubfolders s).id = f.id := by
  cases f; rfl

@[simp] theorem Folder.chatIds_withSubfolders (f : Folder) (s) :
    (f.withSubfolders s).chatIds = f.chatIds := by
  cases f; rfl

@[simp] theorem Folder.subfolders_withSubfolders (f : Folder) (s) :
    (f.withSubfolders s).subfolders = s := by
  cases f; rfl

theorem lookupChat_upsert_self (k : String) (v : ChatEntry) (m : List (String × ChatEntry)) :
    lookupChat k (upsertChat k v m) = some v := by
  induction m with
  | nil => simp [upsertChat, lookupChat]
  | cons p rest ih =>
      obtain ⟨k', v'⟩ := p
      by_cases h : k' = k <;> simp [upsertChat, lookupChat, h, ih]

theorem lookupChat_delete_self (k : String) (m : List (String × ChatEntry)) :
    lookupChat k (deleteChat k m) = none := by
  induction m with
  | nil => simp [deleteChat, lookupChat]
  | cons p rest ih =>
      obtain ⟨k', v'⟩ := p
      by_cases h : k' = k
      · simpa [deleteChat, h] using ih
      · simpa [deleteChat, lookupChat, h] using ih

theorem mem_refsList (l : List Folder) (c : String) :
    c ∈ refsList l ↔ ∃ f ∈ allFolders l, c ∈ f.chatIds := by
  match l with
  | [] => simp [refsList, allFolders]
  | f :: rest =>
      have h1 := mem_refsList f.subfolders c
      have h2 := mem_refsList rest c
      simp only [refsList, allFolders, List.mem_append, List.mem_cons, h1, h2]
      aesop
  termination_by sizeOf l
  decreasing_by
    all_goals cases f
    all_goals (simp [Folder.subfolders]; try omega)

theorem getFolderContext_congr (q q' : JsId) (h : ∀ i, looseEq i q = looseEq i q')
    (l : List Folder) : getFolderContext q l = getFolderContext q' l := by
  match l with
  | [] => simp [getFolderContext]
  | f :: rest =>
      have h1 := getFolderContext_congr q q' h f.subfolders
      have h2 := getFolderContext_congr q q' h rest
      simp only [getFolderContext, h f.id, h1, h2]
  termination_by sizeOf l
  decreasing_by
    all_goals cases f
    all_goals (simp [Folder.subfolders]; try omega)

theorem getFolderContext_eq_none_iff (q : JsId) (l : List Folder) :
    getFolderContext q l = none ↔ ∀ f ∈ allFolders l, looseEq f.id q = false := by
  match l with
  | [] => simp [getFolderContext, allFolders]
  | f :: rest =>
      have h1 := getFolderContext_eq_none_iff q f.subfolders
      have h2 := getFolderContext_eq_none_iff q rest
      cases hf : looseEq f.id q with
      | true => simp [getFolderContext, allFolders, hf]
      | false =>
          cases hsub : getFolderContext q f.subfolders with
          | some g =>
              apply iff_of_false
              · simp [getFolderContext, hf, hsub]
              · intro hall
                have hnone : getFolderContext q f.subfolders = none :=
                  h1.mpr (fun f' hf' => hall f' (by
                    simp only [allFolders, List.mem_cons, List.mem_append]
                    right; left; exact hf'))
                rw [hnone] at hsub
                exact Option.noConfusion hsub
          | none =>
              have lhs_eq : (getFolderContext q (f :: rest) = none) ↔
                  (getFolderContext q rest = none) := by
                simp [getFolderContext, hf, hsub]
              rw [lhs_eq, h2]
              constructor
              · intro hall g hg
                simp only [allFolders, List.mem_cons, List.mem_append] at hg
                rcases hg with rfl | hg | hg
                · exact hf
                · exact (h1.mp hsub) g hg
                · exact hall g hg
              · intro hall g hg
                refine hall g ?_
                simp only [allFolders, List.mem_cons, List.mem_append]
                right; right; exact hg
  termination_by sizeOf l
  decreasing_by
    all_goals cases f
    all_goals (simp [Folder.subfolders]; try omega)

theorem getFolderContext_updateFirstFolder (q : JsId) (upd : Folder → Folder)
    (hid : ∀ g, (upd g).id = g.id) (l : List Folder) :
    getFolderContext q (updateFirstFolder q upd l) = (getFolderContext q l).map upd := by
  match l with
  | [] => simp [getFolderContext, updateFirstFolder]
  | f :: rest =>
      cases hf : looseEq f.id q with
      | true => simp [getFolderContext, updateFirstFolder, hf, hid]
      | false =>
          cases hsub : getFolderContext q f.subfolders with
          | some g =>
              have h1 := getFolderContext_updateFirstFolder q upd hid f.subfolders
              simp [getFolderContext, updateFirstFolder, hf, hsub, h1]
          | none =>
              have h2 := getFolderContext_updateFirstFolder q upd hid rest
              simp [getFolderContext, updateFirstFolder, hf, hsub, h2]
  termination_by sizeOf l
  decreasing_by
    all_goals cases f
    all_goals (simp [Folder.subfolders]; try omega)

theorem allFolders_updateFirstFolder_chatIds (q : JsId) (upd : Folder → Folder)
    (hsubpres : ∀ g, (upd g).subfolders = g.subfolders) (l : List Folder) :
    ∀ g' ∈ allFolders (updateFirstFolder q upd l),
      (∃ g ∈ allFolders l, g'.chatIds = g.chatIds) ∨
      (∃ g, getFolderContext q l = some g ∧ g'.chatIds = (upd g).chatIds) := by
  match l with
  | [] => simp [updateFirstFolder, allFolders]
  | f :: rest =>
      intro g' hg'
      have memL : ∀ g : Folder, g = f ∨ g ∈ allFolders f.subfolders ∨ g ∈ allFolders rest →
          g ∈ allFolders (f :: rest) := by
        intro g hg
        simp only [allFolders, List.mem_cons, List.mem_append]
        exact hg
      cases hf : looseEq f.id q with
      | true =>
          rw [updateFirstFolder] at hg'
          rw [hf] at hg'
          simp only [if_true, allFolders, List.mem_cons, List.mem_append, hsubpres] at hg'
          rcases hg' with rfl | hg' | hg'
          · exact Or.inr ⟨f, by simp [getFolderContext, hf], rfl⟩
          · exact Or.inl ⟨g', memL g' (Or.inr (Or.inl hg')), rfl⟩
          · exact Or.inl ⟨g', memL g' (Or.inr (Or.inr hg')), rfl⟩
      | false =>
          cases hsub : getFolderContext q f.subfolders with
          | some g0 =>
              rw [updateFirstFolder] at hg'
              rw [hf] at hg'
              simp only [Bool.false_eq_true, if_false, hsub, allFolders, List.mem_cons,
                List.mem_append, Folder.subfolders_withSubfolders] at hg'
              rcases hg' with rfl | hg' | hg'
              · exact Or.inl ⟨f, memL f (Or.inl rfl), by simp⟩
              · rcases allFolders_updateFirstFolder_chatIds q upd hsubpres f.subfolders g' hg' with
                  ⟨g, hg, he⟩ | ⟨g, hgc, he⟩
                · exact Or.inl ⟨g, memL g (Or.inr (Or.inl hg)), he⟩
                · refine Or.inr ⟨g, ?_, he⟩
                  simp [getFolderContext, hf, hgc]
              · exact Or.inl ⟨g', memL g' (Or.inr (Or.inr hg')), rfl⟩
          | none =>
              rw [updateFirstFolder] at hg'
              rw [hf] at hg'
              simp only [Bool.false_eq_true, if_false, hsub, allFolders, List.mem_cons,
                List.mem_append] at hg'
              rcases hg' with rfl | hg' | hg'
              · exact Or.inl ⟨g', memL g' (Or.inl rfl), rfl⟩
              · exact Or.inl ⟨g', memL g' (Or.inr (Or.inl hg')), rfl⟩
              · rcases allFolders_updateFirstFolder_chatIds q upd hsubpres rest g' hg' with
                  ⟨g, hg, he⟩ | ⟨g, hgc, he⟩
                · exact Or.inl ⟨g, memL g (Or.inr (Or.inr hg)), he⟩
                · refine Or.inr ⟨g, ?_, he⟩
                  simp [getFolderContext, hf, hsub, hgc]
  termination_by sizeOf l
  decreasing_by
    all_goals cases f
    all_goals (simp [Folder.subfolders]; try omega)

/-! ## Claim theorems -/

/-- C1: Quota gatekeeper boundary: with `QUOTA_LIMIT = 102400` and
`SAFETY_BUFFER = 2048`, a save whose serialization measures at most
100352 bytes (in particular exactly 100352) reaches the persistence
layer, while one measuring 100353 bytes or more is rejected before any
write, with the measured size surfaced. -/
theorem quota_gatekeeper_boundary (lib : Library) :
    QUOTA_LIMIT - SAFETY_BUFFER = 100352 ∧
    (saveGate lib = SaveOutcome.persisted lib ↔ measuredBytes lib ≤ 100352) ∧
    (saveGate lib = SaveOutcome.rejected (measuredBytes lib) ↔
      100353 ≤ measuredBytes lib) := by
  have hgate : saveGate lib = if measuredBytes lib > 100352 then
      SaveOutcome.rejected (measuredBytes lib) else SaveOutcome.persisted lib := by
    simp only [saveGate, QUOTA_LIMIT, SAFETY_BUFFER]
  refine ⟨rfl, ?_, ?_⟩
  · rw [hgate]
    by_cases h : measuredBytes lib > 100352
    · rw [if_pos h]
      exact ⟨fun heq => absurd heq (by simp), fun hle => by omega⟩
    · rw [if_neg h]
      exact ⟨fun _ => by omega, fun _ => rfl⟩
  · rw [hgate]
    by_cases h : measuredBytes lib > 100352
    · rw [if_pos h]
      exact ⟨fun _ => by omega, fun _ => rfl⟩
    · rw [if_neg h]
      exact ⟨fun heq => absurd heq (by simp), fun hge => absurd hge (by omega)⟩

/-- The failing input of C2: a root folder A (id 1) whose subtree holds
folder B (id 2). -/
def folderA : Folder := .mk 1 "A" [] [.mk 2 "B" [] [] "" none] "" none

/-- The library holding only A (and its descendant B). -/
def libMove : Library := { folders := [folderA], allChats := [], pinnedSearches := [] }

/-- C2: moving folder A into its own descendant B is NOT rejected by
`handleMoveFolder`: B is a descendant of A (the `isDescendant` walk of
the menu layer confirms it), yet the call removes A — and with it its
whole subtree — from the tree and re-inserts nothing, leaving the
folder list empty instead of unchanged. -/
theorem handleMoveFolder_into_descendant_drops_subtree :
    isDescendant folderA (JsId.num 2) = true ∧
    (handleMoveFolder (JsId.num 1) (MoveTarget.folder (JsId.num 2)) libMove).folders
      = [] ∧
    libMove.folders ≠ [] := by
  refine ⟨?_, ?_, ?_⟩
  · rw [isDescendant]
    simp [folderA, looseEq]
  · simp [handleMoveFolder, extractFirstFolder, getFolderContext, looseEq,
      libMove, folderA]
  · simp [libMove]

/-- A small fixture library: folder 5 already holds chat c1, whose
metadata entry is present. -/
def libSync : Library :=
  { folders := [.mk 5 "F" ["c1"] [] "" none],
    allChats := [("c1",
      { id := "c1", title := "T", tags := ["#a"], annot := "n",
        timestamp := 10, updatedAt := 10 })],
    pinnedSearches := [] }

/-- C9: a change notification whose new value serializes identically to
the in-memory library leaves the library untouched and triggers no
refresh — but the session counters are also left untouched: the `skips`
counter is NOT incremented (it is never incremented anywhere in the
code, contradicting the claim), while a differing notification replaces
the library wholesale. -/
theorem syncOnChanged_identical_without_skip_count :
    syncOnChanged libSync ⟨3, 0⟩ (some libSync) = (libSync, ⟨3, 0⟩, false) ∧
    (syncOnChanged libSync ⟨3, 0⟩ (some emptyLibrary)).1 = emptyLibrary ∧
    (syncOnChanged libSync ⟨3, 0⟩ none).1 = emptyLibrary := by
  refine ⟨?_, ?_, ?_⟩
  · simp [syncOnChanged]
  · have hser : serLibrary libSync ≠ serLibrary emptyLibrary := by
      simp [serLibrary, libSync, emptyLibrary, serArr, serChat, serStr, serNum,
        serFolder, escapeJsonChar, String.join, String.intercalate]
      decide
    simp [syncOnChanged, Ne.symm hser]
  · simp [syncOnChanged]

/-- C5 counterexample: linking chat c1 into folder 5, which already
holds it, returns `false` — but the `allChats` entry for c1 is NOT left
unchanged: its metadata is overwritten (the upsert happens before the
already-present check). -/
theorem link_already_present_changes_entry_counterexample :
    (saveChatToFolder (JsId.num 5) "c1" "T2" ["#x"] "note2" 99 libSync).2 = false ∧
    lookupChat "c1" (saveChatToFolder (JsId.num 5) "c1" "T2" ["#x"] "note2" 99
        libSync).1.allChats ≠ lookupChat "c1" libSync.allChats := by
  constructor
  · simp [saveChatToFolder, getFolderContext, looseEq, libSync]
  · simp [saveChatToFolder, getFolderContext, looseEq, libSync, lookupChat,
      upsertChat, sanitizeTagSave, dropMarkers, jsTrim, jsTrimList, jsSpace]

/-- C5 (amended): when the folder already references the chat,
`saveChatToFolder` signals "already present" (returns `false`), leaves
every folder and the pinned searches unchanged and does not run the
save path — but it still overwrites the `allChats` entry with the
supplied title, sanitized tags and note, preserving the original
`timestamp` while refreshing `updatedAt`. -/
theorem link_already_present_overwrites_metadata (lib : Library) (fid : JsId)
    (cid title : String) (tags : List String) (an : String) (now : Int)
    (f : Folder) (hctx : getFolderContext fid lib.folders = some f)
    (hmem : cid ∈ f.chatIds) :
    (saveChatToFolder fid cid title tags an now lib).2 = false ∧
    (saveChatToFolder fid cid title tags an now lib).1.folders = lib.folders ∧
    (saveChatToFolder fid cid title tags an now lib).1.pinnedSearches =
      lib.pinnedSearches ∧
    lookupChat cid (saveChatToFolder fid cid title tags an now lib).1.allChats =
      some { id := cid, title := title, tags := tags.map sanitizeTagSave,
             annot := an,
             timestamp :=
               match lookupChat cid lib.allChats with
               | some old => old.timestamp
               | none => now,
             updatedAt := now } := by
  simp only [saveChatToFolder, hctx]
  rw [if_pos hmem]
  exact ⟨rfl, rfl, rfl, lookupChat_upsert_self _ _ _⟩

/-- C5 witness: the amended theorem applied at the concrete fixture. -/
theorem link_already_present_overwrites_metadata_witness :
    (saveChatToFolder (JsId.num 5) "c1" "T2" ["#x"] "note2" 99 libSync).2 = false :=
  (link_already_present_overwrites_metadata libSync (JsId.num 5) "c1" "T2" ["#x"]
    "note2" 99 (Folder.mk 5 "F" ["c1"] [] "" none)
    (by simp [libSync, getFolderContext, looseEq]) (by simp)).1

/-- The head of a string stripped of its leading marker run is never
another marker. -/
theorem head_dropWhile_marker (l : List Char) :
    (l.dropWhile (· = '#')).head? ≠ some '#' := by
  induction l with
  | nil => simp
  | cons c t ih =>
      by_cases hc : c = '#'
      · simpa [List.dropWhile, hc] using ih
      · simp [List.dropWhile, hc]

/-- C8 counterexample: `saveChatToFolder` given the marker-only input
tag `"#"` stores the bare tag `"#"` instead of dropping it. -/
theorem tag_marker_only_stored_counterexample :
    (lookupChat "c1" (saveChatToFolder (JsId.num 5) "c1" "T" ["#"] "" 99
        libSync).1.allChats).map ChatEntry.tags = some ["#"] := by
  simp [saveChatToFolder, getFolderContext, looseEq, libSync, lookupChat,
    upsertChat, sanitizeTagSave, dropMarkers, jsTrim, jsTrimList, jsSpace]

/-- C8 (amended): both operations canonicalize a tag to a single
leading `#` followed by the input trimmed and stripped of leading
markers (the body never starts with another marker); `editChatTags`
drops a tag whose body is empty (empty or marker-only input stores
nothing), while `saveChatToFolder` keeps such input as the bare `"#"`;
the operations store exactly these normalized lists. -/
theorem tag_normalization_amended (s : String) :
    sanitizeTagSave s = "#" ++ dropMarkers (jsTrim s) ∧
    (dropMarkers (jsTrim s)).data.head? ≠ some '#' ∧
    (dropMarkers (jsTrim s) = "" →
      normalizeTagEdit s = none ∧ sanitizeTagSave s = "#") ∧
    (dropMarkers (jsTrim s) ≠ "" →
      normalizeTagEdit s = some (sanitizeTagSave s)) ∧
    (∀ (lib : Library) (cid input : String) (now : Int) (chat : ChatEntry),
      lookupChat cid lib.allChats = some chat →
      (lookupChat cid (editChatTags cid input now lib).allChats).map ChatEntry.tags =
        some ((input.splitOn ",").filterMap normalizeTagEdit)) ∧
    (∀ (lib : Library) (fid : JsId) (cid title : String) (tags : List String)
      (an : String) (now : Int) (f : Folder),
      getFolderContext fid lib.folders = some f →
      (lookupChat cid (saveChatToFolder fid cid title tags an now
          lib).1.allChats).map ChatEntry.tags = some (tags.map sanitizeTagSave)) := by
  refine ⟨rfl, ?_, ?_, ?_, ?_, ?_⟩
  · simpa [dropMarkers] using head_dropWhile_marker (jsTrim s).data
  · intro h
    refine ⟨?_, ?_⟩
    · simp [normalizeTagEdit, h]
    · simp [sanitizeTagSave, h]
  · intro h
    have hne : (dropMarkers (jsTrim s)).data ≠ [] := by
      intro hd
      exact h (String.ext (by simp [hd]))
    have hlen : (dropMarkers (jsTrim s)).length > 0 := by
      cases hd : (dropMarkers (jsTrim s)).data with
      | nil => exact absurd hd hne
      | cons c t => simp [String.length, hd]
    simp [normalizeTagEdit, sanitizeTagSave, hlen]
  · intro lib cid input now chat hfound
    simp only [editChatTags, hfound]
    rw [lookupChat_upsert_self]
    rfl
  · intro lib fid cid title tags an now f hctx
    simp only [saveChatToFolder, hctx]
    by_cases hmem : cid ∈ f.chatIds
    · rw [if_pos hmem]
      rw [lookupChat_upsert_self]
      rfl
    · rw [if_neg hmem]
      rw [lookupChat_upsert_self]
      rfl

/-- C8 witness: the amended theorem at marker-only and at ordinary
input. -/
theorem tag_normalization_amended_witness :
    normalizeTagEdit "#" = none ∧ normalizeTagEdit "work" = some "#work" :=
  ⟨((tag_normalization_amended "#").2.2.1 (by decide)).1,
    by
      have h := (tag_normalization_amended "work").2.2.2.1 (by decide)
      rw [h]
      rfl⟩

/-- The folder returned by `getFolderContext` is a node of the tree. -/
theorem getFolderContext_mem_allFolders (q : JsId) (l : List Folder) (f : Folder)
    (h : getFolderContext q l = some f) : f ∈ allFolders l := by
  match l with
  | [] => simp [getFolderContext] at h
  | g :: rest =>
      rw [getFolderContext] at h
      cases hg : looseEq g.id q with
      | true =>
          rw [hg] at h
          simp only [if_true, Option.some_inj] at h
          subst h
          simp [allFolders]
      | false =>
          rw [hg] at h
          simp only [Bool.false_eq_true, if_false] at h
          cases hsub : getFolderContext q g.subfolders with
          | some g0 =>
              rw [hsub] at h
              simp only [Option.some_inj] at h
              have hmem := getFolderContext_mem_allFolders q g.subfolders g0 hsub
              rw [h] at hmem
              simp only [allFolders, List.mem_cons, List.mem_append]
              right; left; exact hmem
          | none =>
              rw [hsub] at h
              have := getFolderContext_mem_allFolders q rest f h
              simp only [allFolders, List.mem_cons, List.mem_append]
              right; right; exact this
  termination_by sizeOf l
  decreasing_by
    all_goals cases g
    all_goals (simp [Folder.subfolders]; try omega)

/-- C3: `removeChatFromFolder` with a specific folder removes the chat
reference from the first located folder only (the tree change is
exactly that one folder's `chatIds` filtered), keeps the pinned
searches, and afterwards: when no folder references the chat any more
(the removed reference was the last) the `allChats` entry is reclaimed,
while if some folder still references it the dictionary is untouched. -/
theorem removeChat_last_reference_reclaims (lib : Library) (fid : JsId)
    (cid : String) (f : Folder)
    (hctx : getFolderContext fid lib.folders = some f) :
    (removeChatFromFolder cid fid lib).folders =
      updateFirstFolder fid
        (fun g => g.withChatIds (g.chatIds.filter (· ≠ cid))) lib.folders ∧
    (removeChatFromFolder cid fid lib).pinnedSearches = lib.pinnedSearches ∧
    (findAllFoldersForChat cid (removeChatFromFolder cid fid lib).folders = [] →
      lookupChat cid (removeChatFromFolder cid fid lib).allChats = none) ∧
    (findAllFoldersForChat cid (removeChatFromFolder cid fid lib).folders ≠ [] →
      (removeChatFromFolder cid fid lib).allChats = lib.allChats) := by
  simp only [removeChatFromFolder, hctx]
  by_cases hrem : (findAllFoldersForChat cid
      (updateFirstFolder fid
        (fun g => g.withChatIds (g.chatIds.filter (· ≠ cid))) lib.folders)).length = 0
  · rw [if_pos hrem]
    refine ⟨rfl, rfl, fun _ => lookupChat_delete_self _ _, fun hne => ?_⟩
    exact absurd (List.length_eq_zero.mp hrem) hne
  · rw [if_neg hrem]
    refine ⟨rfl, rfl, fun hnil => ?_, fun _ => rfl⟩
    exact absurd (by rw [hnil]; rfl) hrem

/-- A fixture for the C3 witness: folder 7 and folder 8 both exist;
folder 7 holds c9, folder 8 does not, and c9 has an entry. -/
def libUnlink : Library :=
  { folders := [.mk 7 "P" ["c9"] [] "" none, .mk 8 "Q" [] [] "" none],
    allChats := [("c9",
      { id := "c9", title := "t9", tags := [], annot := "",
        timestamp := 1, updatedAt := 1 })],
    pinnedSearches := [] }

/-- C3 witness: removing c9 from folder 7 — its only referencing
folder — reclaims the `allChats` entry. -/
theorem removeChat_last_reference_reclaims_witness :
    lookupChat "c9" (removeChatFromFolder "c9" (JsId.num 7) libUnlink).allChats =
      none :=
  (removeChat_last_reference_reclaims libUnlink (JsId.num 7) "c9"
      (Folder.mk 7 "P" ["c9"] [] "" none)
      (by simp [libUnlink, getFolderContext, looseEq])).2.2.1
    (by
      simp [removeChatFromFolder, libUnlink, getFolderContext, looseEq,
        updateFirstFolder, findAllFoldersForChat, Folder.withChatIds])

/-- C4: link idempotence: saving the same chat to the same folder twice
leaves the located folder holding exactly one occurrence of the chat
reference (provided it held at most one to begin with), and one link
step preserves no-duplicate `chatIds` across every folder of the
tree. -/
theorem link_idempotent (lib : Library) (fid : JsId) (cid title : String)
    (tags : List String) (an : String) (now now' : Int) (f : Folder)
    (hctx : getFolderContext fid lib.folders = some f)
    (hcount : f.chatIds.count cid ≤ 1) :
    ((getFolderContext fid
        ((saveChatToFolder fid cid title tags an now'
          (saveChatToFolder fid cid title tags an now lib).1).1).folders).map
      (fun g => g.chatIds.count cid)) = some 1 ∧
    ((∀ g ∈ allFolders lib.folders, g.chatIds.Nodup) →
      ∀ g' ∈ allFolders (saveChatToFolder fid cid title tags an now lib).1.folders,
        g'.chatIds.Nodup) := by
  have hid : ∀ g : Folder, (g.withChatIds (g.chatIds ++ [cid])).id = g.id := by
    simp
  constructor
  · set lib1 := (saveChatToFolder fid cid title tags an now lib).1 with hlib1
    by_cases hmem : cid ∈ f.chatIds
    · -- already present: both calls leave the tree unchanged
      have h1 : lib1.folders = lib.folders := by
        rw [hlib1]
        simp only [saveChatToFolder, hctx]
        rw [if_pos hmem]
      have hctx1 : getFolderContext fid lib1.folders = some f := by
        rw [h1]; exact hctx
      have h2 : (saveChatToFolder fid cid title tags an now' lib1).1.folders =
          lib1.folders := by
        simp only [saveChatToFolder, hctx1]
        rw [if_pos hmem]
      rw [h2, hctx1]
      have : f.chatIds.count cid = 1 :=
        Nat.le_antisymm hcount (List.count_pos_iff.mpr hmem)
      simp [this]
    · -- absent: the first call appends, the second is a no-op
      have h1 : lib1.folders = updateFirstFolder fid
          (fun g => g.withChatIds (g.chatIds ++ [cid])) lib.folders := by
        rw [hlib1]
        simp only [saveChatToFolder, hctx]
        rw [if_neg hmem]
      have hctx1 : getFolderContext fid lib1.folders =
          some (f.withChatIds (f.chatIds ++ [cid])) := by
        rw [h1, getFolderContext_updateFirstFolder _ _ hid, hctx]
        rfl
      have hmem1 : cid ∈ (f.withChatIds (f.chatIds ++ [cid])).chatIds := by
        simp
      have h2 : (saveChatToFolder fid cid title tags an now' lib1).1.folders =
          lib1.folders := by
        simp only [saveChatToFolder, hctx1]
        rw [if_pos hmem1]
      rw [h2, hctx1]
      have hc0 : f.chatIds.count cid = 0 := List.count_eq_zero.mpr hmem
      simp [List.count_append, hc0]
  · intro hnd g' hg'
    by_cases hmem : cid ∈ f.chatIds
    · have h1 : (saveChatToFolder fid cid title tags an now lib).1.folders =
          lib.folders := by
        simp only [saveChatToFolder, hctx]
        rw [if_pos hmem]
      rw [h1] at hg'
      exact hnd g' hg'
    · have h1 : (saveChatToFolder fid cid title tags an now lib).1.folders =
          updateFirstFolder fid
            (fun g => g.withChatIds (g.chatIds ++ [cid])) lib.folders := by
        simp only [saveChatToFolder, hctx]
        rw [if_neg hmem]
      rw [h1] at hg'
      rcases allFolders_updateFirstFolder_chatIds fid
          (fun g => g.withChatIds (g.chatIds ++ [cid])) (by simp) lib.folders g' hg'
        with ⟨g, hg, he⟩ | ⟨g, hgc, he⟩
      · rw [he]; exact hnd g hg
      · have hgf : g = f := by
          rw [hgc] at hctx
          exact Option.some_inj.mp hctx
        rw [he, hgf]
        simp only [Folder.chatIds_withChatIds]
        have hfmem := getFolderContext_mem_allFolders fid lib.folders f hctx
        refine List.Nodup.append (hnd f hfmem) (List.nodup_singleton cid) ?_
        intro a ha hb
        simp only [List.mem_singleton] at hb
        subst hb
        exact hmem ha

/-- C4 witness: linking chat c2 twice into the (initially empty)
folder 8 leaves exactly one occurrence. -/
theorem link_idempotent_witness :
    ((getFolderContext (JsId.num 8)
        ((saveChatToFolder (JsId.num 8) "c2" "T" [] "" 2
          (saveChatToFolder (JsId.num 8) "c2" "T" [] "" 1 libUnlink).1).1).folders).map
      (fun g => g.chatIds.count "c2")) = some 1 :=
  (link_idempotent libUnlink (JsId.num 8) "c2" "T" [] "" 1 2
      (Folder.mk 8 "Q" [] [] "" none)
      (by simp [libUnlink, getFolderContext, looseEq]) (by simp)).1

/-- C6: `findUnlinked` returns exactly the keys of `allChats` minus the
ids referenced by any folder anywhere in the tree (subfolders at every
depth included); in particular its result is disjoint from the
referenced-id set. -/
theorem findUnlinked_correct (lib : Library) (id : String) :
    (id ∈ findUnlinked lib ↔
      id ∈ chatKeys lib.allChats ∧
        ¬ ∃ f ∈ allFolders lib.folders, id ∈ f.chatIds) ∧
    (id ∈ findUnlinked lib → id ∉ refsList lib.folders) := by
  have hm := mem_refsList lib.folders id
  constructor
  · rw [← hm]
    simp [findUnlinked, List.mem_filter]
  · intro h
    rw [findUnlinked, List.mem_filter] at h
    simpa using h.2

/-- C6 witness: in the fixture library, an unreferenced chat u1 is
reported unlinked and is indeed unreferenced. -/
def libGc : Library :=
  { folders := [.mk 7 "P" ["c9"] [] "" none],
    allChats := [("c9",
      { id := "c9", title := "t9", tags := [], annot := "",
        timestamp := 1, updatedAt := 1 }),
      ("u1",
      { id := "u1", title := "loose", tags := [], annot := "",
        timestamp := 2, updatedAt := 2 })],
    pinnedSearches := [] }

/-- C6 witness: the disjointness implication applied to the concrete
unlinked chat u1. -/
theorem findUnlinked_correct_witness :
    "u1" ∉ refsList libGc.folders :=
  (findUnlinked_correct libGc "u1").2
    (by simp [findUnlinked, libGc, chatKeys, refsList, List.mem_filter])

/-- C7: for the query `#work -"old project"`, a chat matches exactly
when some tag contains `work` (case-insensitively) and neither the
title nor the note contains the phrase `old project`; so a chat with a
matching tag and without the phrase matches, and a chat without such a
tag never matches. -/
theorem query_conjunction (chat : ChatEntry) :
    isMatch chat (tokenize "#work -\"old project\"") =
      ((chat.tags.map toLowerStr).any (fun t => containsSub "work" t) &&
        (!containsSub "old project" (toLowerStr chat.title) &&
         !containsSub "old project" (toLowerStr chat.annot))) := by
  have htok : tokenize "#work -\"old project\"" =
      [Token.tag "work", Token.notText "old project"] := by decide
  rw [htok]
  simp [isMatch]

/-- C10: folder lookup is insensitive to the form of the id: a string
that denotes the number n finds exactly what the number n finds, and
the lookup fails exactly when no folder in the tree loosely matches the
requested id. -/
theorem folder_id_loose_lookup :
    (∀ (l : List Folder) (s : String) (n : Int), jsToNumber s = some n →
      getFolderContext (JsId.str s) l = getFolderContext (JsId.num n) l) ∧
    (∀ (l : List Folder) (q : JsId),
      getFolderContext q l = none ↔ ∀ f ∈ allFolders l, looseEq f.id q = false) := by
  constructor
  · intro l s n h
    apply getFolderContext_congr
    intro i
    simp [looseEq, h]
  · intro l q
    exact getFolderContext_eq_none_iff q l

/-- C10 witness: looking folder 7 up by the string "7" equals looking
it up by the number 7. -/
theorem folder_id_loose_lookup_witness :
    getFolderContext (JsId.str "7") libUnlink.folders =
      getFolderContext (JsId.num 7) libUnlink.folders :=
  folder_id_loose_lookup.1 libUnlink.folders "7" 7 (by decide)

end Maktaba
